import Mathlib

/-!
Verification of the helmhub-io/charts tooling:
* `tools/match_available_image_tags.py` — the tag resolver
  (`find_best_matching_tag`) that maps a missing image tag to the best
  available substitute.
* `tools/migrate_helmhubio_to_helmhubio.py` — the structural YAML/JSON
  rewriters (`update_chart_yaml`, `update_values_yaml`,
  `update_values_schema_json`), the text rewriter (`safe_text_replace`)
  and the per-file dispatch of `main`.

Strings are embedded as `List Char` so every definition computes in the
kernel.  Python string operations (`split`, `join`, `replace`, `startswith`,
`in`, regex substitution of the concrete patterns used by the scripts) are
given faithful executable models below.
-/

set_option autoImplicit false

/-- Strings of the embedded programs: plain character lists. -/
abbrev Str := List Char

/-- Coerce a Lean string literal to the embedded representation. -/
def cs (s : String) : Str := s.data

/-- Python `s.split(sep)` for a one-character separator: splits at every
occurrence, keeping empty pieces; the result is never the empty list
(`"".split(sep) == [""]`). -/
def pySplit (sep : Char) : Str → List Str
  | [] => [[]]
  | c :: rest =>
    if c = sep then [] :: pySplit sep rest
    else
      match pySplit sep rest with
      | [] => [[c]]
      | r :: rs => (c :: r) :: rs

/-- Python `'.'.join(parts)`. -/
def joinDot : List Str → Str
  | [] => []
  | [x] => x
  | x :: xs => x ++ '.' :: joinDot xs

/-- Python `parts[0]`; used only where the list is provably nonempty
(`str.split` never returns an empty list). -/
def pyFirst (l : List Str) : Str := l.headD []

/-- Python `s.startswith(p)`: `pyStartswith p s` is true when `p` is a
character-wise prefix of `s`. -/
def pyStartswith : Str → Str → Bool
  | [], _ => true
  | _ :: _, [] => false
  | p :: ps, c :: rest => if p = c then pyStartswith ps rest else false

theorem pyStartswith_length {p s : Str} (h : pyStartswith p s = true) :
    p.length ≤ s.length := by
  induction p generalizing s with
  | nil => simp
  | cons a ps ih =>
    cases s with
    | nil => simp [pyStartswith] at h
    | cons c rest =>
      by_cases hac : a = c
      · rw [pyStartswith, if_pos hac] at h
        have := ih h
        simp only [List.length_cons]
        omega
      · rw [pyStartswith, if_neg hac] at h
        cases h

/-! ## Tag matcher (`find_best_matching_tag`, match_available_image_tags.py lines 32-65) -/

/-- `missing_version = missing_tag.split('-')[0]` (line 36). -/
def missingVersionOf (missing : Str) : Str := pyFirst (pySplit '-' missing)

/-- `major_minor = '.'.join(missing_version.split('.')[:2])` (line 43). -/
def majorMinorOf (missing : Str) : Str :=
  joinDot ((pySplit '.' (missingVersionOf missing)).take 2)

/-- `major = missing_version.split('.')[0]` (line 56). -/
def majorOf (missing : Str) : Str := pyFirst (pySplit '.' (missingVersionOf missing))

/-- `find_best_matching_tag(missing_tag, available_tags)` (lines 32-65):
exact membership first; then the candidate list of tags starting with
`major_minor`, returning its first element; then the first tag starting
with `major + "."`; then the first available tag; else `None`. -/
def findBestMatchingTag (missing : Str) (avail : List Str) : Option Str :=
  if missing ∈ avail then some missing
  else
    match avail.filter (fun t => pyStartswith (majorMinorOf missing) t) with
    | c :: _ => some c
    | [] =>
      match avail.find? (fun t => pyStartswith (majorOf missing ++ ['.']) t) with
      | some t => some t
      | none => avail.head?

theorem find_eq_filterHead {α : Type} (p : α → Bool) (l : List α) :
    l.find? p = (l.filter p).head? := by
  induction l with
  | nil => rfl
  | cons a t ih =>
    cases hp : p a with
    | true =>
      rw [List.find?_cons_of_pos t hp, List.filter_cons_of_pos hp]
      rfl
    | false =>
      rw [List.find?_cons_of_neg t (by simp [hp]), List.filter_cons_of_neg (by simp [hp]), ih]

/-- C1: the tag resolver follows the five-step priority exactly: a verbatim
member of `available_tags` is returned as-is; otherwise the first tag in list
order starting with the first two dot-separated components of the part of
`missing_tag` before its first `-`; otherwise the first tag starting with the
first component followed by `.`; otherwise the head of a nonempty list;
a later step's result is never returned when an earlier step has a candidate. -/
theorem findBestMatchingTag_priority (missing : Str) (avail : List Str) :
    findBestMatchingTag missing avail =
      if missing ∈ avail then some missing
      else
        match avail.find? (fun t => pyStartswith (majorMinorOf missing) t) with
        | some t => some t
        | none =>
          match avail.find? (fun t => pyStartswith (majorOf missing ++ ['.']) t) with
          | some t => some t
          | none => avail.head? := by
  unfold findBestMatchingTag
  by_cases h : missing ∈ avail
  · rw [if_pos h, if_pos h]
  · simp only [h, if_false, find_eq_filterHead]
    cases hf : avail.filter (fun t => pyStartswith (majorMinorOf missing) t) with
    | nil => rfl
    | cons c rest => rfl

/-- C9: the tag resolver is total, returns `none` exactly on an empty
catalog, and any returned tag is an element of `available_tags`. -/
theorem findBestMatchingTag_total (missing : Str) (avail : List Str) :
    (findBestMatchingTag missing avail = none ↔ avail = []) ∧
      (∀ t, findBestMatchingTag missing avail = some t → t ∈ avail) := by
  unfold findBestMatchingTag
  by_cases h : missing ∈ avail
  · simp only [h, if_true]
    constructor
    · constructor
      · intro hc; cases hc
      · intro he; subst he; cases h
    · intro t ht
      cases ht
      exact h
  · simp only [h, if_false]
    cases hf : avail.filter (fun t => pyStartswith (majorMinorOf missing) t) with
    | cons c rest =>
      constructor
      · constructor
        · intro hc; cases hc
        · intro he
          subst he
          simp at hf
      · intro t ht
        cases ht
        have : c ∈ avail.filter (fun t => pyStartswith (majorMinorOf missing) t) := by
          rw [hf]; exact List.mem_cons_self _ _
        exact List.mem_of_mem_filter this
    | nil =>
      cases hg : avail.find? (fun t => pyStartswith (majorOf missing ++ ['.']) t) with
      | some t0 =>
        constructor
        · constructor
          · intro hc; cases hc
          · intro he
            subst he
            simp at hg
        · intro t ht
          cases ht
          exact List.mem_of_find?_eq_some hg
      | none =>
        constructor
        · exact List.head?_eq_none_iff
        · intro t ht
          exact List.mem_of_mem_head? ht

theorem findBestMatchingTag_total_witness :
    findBestMatchingTag (cs "latest") [cs "edge"] = some (cs "edge") ∧
      cs "edge" ∈ [cs "edge"] :=
  ⟨by decide, (findBestMatchingTag_total (cs "latest") [cs "edge"]).2 (cs "edge") (by decide)⟩


/-! ## Python string primitives used by the migrator

The scanning substitutions below consume at least one character of the
input per step, so they are written with a fuel argument instantiated to
the input's length by their wrappers; this keeps every definition
structurally recursive and hence computable by the kernel. -/

/-- `stripPre p s = some rest` exactly when `s = p ++ rest`. -/
def stripPre : Str → Str → Option Str
  | [], s => some s
  | _ :: _, [] => none
  | p :: ps, c :: rest => if p = c then stripPre ps rest else none

/-- Python `s.replace(pat, repl)` for a nonempty `pat`: scans left to
right, replacing every non-overlapping occurrence.  (The scripts never
call `replace` with an empty pattern; an empty pattern is treated as
matching nothing.)  Each step consumes at least one character, so fuel
`s.length` is exact. -/
def pyReplaceGo (pat repl : Str) : Nat → Str → Str
  | 0, s => s
  | fuel + 1, s =>
    match s with
    | [] => []
    | c :: rest =>
      match pat, stripPre pat s with
      | _ :: _, some suffix => repl ++ pyReplaceGo pat repl fuel suffix
      | _, _ => c :: pyReplaceGo pat repl fuel rest

def pyReplace (pat repl s : Str) : Str := pyReplaceGo pat repl s.length s

/-- Python `s.split(sep, 1)[1]`: everything after the first occurrence of
`sep`.  Callers only use it under a `startswith` guard that guarantees the
separator occurs (otherwise Python would raise `IndexError`). -/
def pyAfterFirst (sep : Char) : Str → Str
  | [] => []
  | c :: rest => if c = sep then rest else pyAfterFirst sep rest

/-- Python `pat in s` (substring containment). -/
def pyContains (pat : Str) : Str → Bool
  | [] => pyStartswith pat []
  | s@(_ :: rest) => pyStartswith pat s || pyContains pat rest

/-- Python's `\w` (re word character) for the ASCII inputs handled here. -/
def isWordChar (c : Char) : Bool := c.isAlphanum || c = '_'

/-- The character class `[a-z0-9_.-]` of the docs namespace pattern
(migrator line 272). -/
def clsDocs (c : Char) : Bool :=
  ('a' ≤ c && c ≤ 'z') || ('0' ≤ c && c ≤ '9') || c = '_' || c = '.' || c = '-'

/-- The character class `[A-Za-z0-9_.-]` of the CI-workflow namespace
pattern (migrator line 276). -/
def clsGh (c : Char) : Bool := clsDocs c || ('A' ≤ c && c ≤ 'Z')

/-- `re.sub(r"\bbitnami/([<cls>]+)", newns + r"/\1", text)`: at a word
boundary, `bitnami/` followed by a nonempty class run is replaced by
`newns ++ "/" ++ run`; the scan resumes after the captured run, whose last
character determines the next boundary state.  `prevWord` records whether
the previously consumed original character was a word character (false at
the start of the string). -/
def reSubNsGo (cls : Char → Bool) (newns : Str) : Nat → Bool → Str → Str
  | 0, _, s => s
  | fuel + 1, prevWord, s =>
    match s with
    | [] => []
    | c :: rest =>
      match prevWord, stripPre (cs "bitnami/") s with
      | false, some suffix =>
        match suffix with
        | d :: _ =>
          if cls d then
            let run := suffix.takeWhile cls
            newns ++ '/' :: run ++
              reSubNsGo cls newns fuel (isWordChar (run.getLastD 'x')) (suffix.dropWhile cls)
          else c :: reSubNsGo cls newns fuel (isWordChar c) rest
        | [] => c :: reSubNsGo cls newns fuel (isWordChar c) rest
      | _, _ => c :: reSubNsGo cls newns fuel (isWordChar c) rest

def reSubNs (cls : Char → Bool) (newns : Str) (s : Str) : Str :=
  reSubNsGo cls newns s.length false s

/-- `re.sub(r"\bBitnami\b", "HelmHubIO", text)` (migrator line 57): the
brand word is replaced when bounded by non-word characters (or the ends of
the string) on both sides. -/
def subBrandWordGo : Nat → Bool → Str → Str
  | 0, _, s => s
  | fuel + 1, prevWord, s =>
    match s with
    | [] => []
    | c :: rest =>
      match prevWord, stripPre (cs "Bitnami") s with
      | false, some suffix =>
        match suffix with
        | [] => cs "HelmHubIO"
        | d :: _ =>
          if isWordChar d then c :: subBrandWordGo fuel (isWordChar c) rest
          else cs "HelmHubIO" ++ subBrandWordGo fuel true suffix
      | _, _ => c :: subBrandWordGo fuel (isWordChar c) rest

def subBrandWord (s : Str) : Str := subBrandWordGo s.length false s

/-- `re.sub(r"/(tree|blob)/(main|master)/bitnami/", r"/\1/\2/helmhubio/", s)`
(migrator lines 51, 131, 141): the four alternation combinations are
mutually exclusive at any one position, so they can be tried in order. -/
def subTreeBlobGo : Nat → Str → Str
  | 0, s => s
  | fuel + 1, s =>
    match s with
    | [] => []
    | c :: rest =>
      match stripPre (cs "/tree/main/bitnami/") s with
      | some suffix => cs "/tree/main/helmhubio/" ++ subTreeBlobGo fuel suffix
      | none =>
        match stripPre (cs "/tree/master/bitnami/") s with
        | some suffix => cs "/tree/master/helmhubio/" ++ subTreeBlobGo fuel suffix
        | none =>
          match stripPre (cs "/blob/main/bitnami/") s with
          | some suffix => cs "/blob/main/helmhubio/" ++ subTreeBlobGo fuel suffix
          | none =>
            match stripPre (cs "/blob/master/bitnami/") s with
            | some suffix => cs "/blob/master/helmhubio/" ++ subTreeBlobGo fuel suffix
            | none => c :: subTreeBlobGo fuel rest

def subTreeBlob (s : Str) : Str := subTreeBlobGo s.length s

/-! ## Parsed YAML/JSON documents

`ruamel.yaml` / `json` parse a file into nested dicts, lists and scalars;
the rewriting code dispatches on `isinstance(..., dict)`,
`isinstance(..., list)` and `isinstance(..., str)`.  Dicts and lists are
embedded as cons chains in one inductive type (`ocons`/`onil` for dict
entries, `acons`/`anil` for list elements), so all traversals are
structural.  Dicts keep Python semantics: unique keys, insertion order,
assignment to an existing key keeps its position and appends otherwise. -/

inductive JVal where
  | jstr (s : Str)
  | jint (n : Int)
  | jbool (b : Bool)
  | jnull
  | anil
  | acons (v : JVal) (t : JVal)
  | onil
  | ocons (k : Str) (v : JVal) (t : JVal)
  deriving DecidableEq

/-- `isinstance(v, dict)`. -/
def isObjShape : JVal → Bool
  | .onil => true
  | .ocons _ _ _ => true
  | _ => false

/-- `isinstance(v, list)`. -/
def isArrShape : JVal → Bool
  | .anil => true
  | .acons _ _ => true
  | _ => false

/-- Python `d.get(k)` on a dict: the value of the (unique) key, if
present; `none` on anything that is not a dict entry chain. -/
def getO (k : Str) : JVal → Option JVal
  | .ocons k' v t => if k = k' then some v else getO k t
  | _ => none

/-- Python `d[k] = v` on a dict: overwrite the (unique) existing key in
place, or append a new key at the end. -/
def setO (k : Str) (v : JVal) : JVal → JVal
  | .ocons k' v' t => if k = k' then .ocons k' v t else .ocons k' v' (setO k v t)
  | .onil => .ocons k v .onil
  | other => other

/-! ## `update_values_yaml` (migrator lines 177-216) -/

/-- The four-branch `image.repository` rewrite of `update_values_yaml`
(lines 191-204): `some new` when a branch fires (the code then sets
`changed = True`), `none` when no branch matches.  The third branch is the
self-migrated remnant of the original `docker.io/bitnami/` rule: its
pattern and replacement are now the identical string, so it rewrites the
repository to itself yet still reports a change. -/
def rewriteRepoV (repo : Str) : Option Str :=
  if pyStartswith (cs "bitnami/") repo then
    some (cs "helmhubio/" ++ pyAfterFirst '/' repo)
  else if pyStartswith (cs "bitnamilegacy/") repo then
    some (cs "helmhubio/" ++ pyAfterFirst '/' repo)
  else if pyStartswith (cs "docker.io/helmhubio/") repo then
    some (pyReplace (cs "docker.io/helmhubio/") (cs "docker.io/helmhubio/") repo)
  else if pyStartswith (cs "docker.io/helmhubiolegacy/") repo then
    some (pyReplace (cs "docker.io/helmhubiolegacy/") (cs "docker.io/helmhubio/") repo)
  else none

/-- C5: for a values-role repository string `"bitnami/rest"` or
`"bitnamilegacy/rest"` (the two recognized legacy namespace spellings),
only the leading namespace segment is rewritten; everything after the
first `/` — in particular the image base name after the last `/` — is
preserved verbatim. -/
theorem valuesRepo_namespace_only (rest : Str) :
    rewriteRepoV (cs "bitnami/" ++ rest) = some (cs "helmhubio/" ++ rest) ∧
      rewriteRepoV (cs "bitnamilegacy/" ++ rest) = some (cs "helmhubio/" ++ rest) := by
  constructor <;> simp [rewriteRepoV, cs, pyStartswith, pyAfterFirst]

/-- The `if "image" in obj and isinstance(obj["image"], dict)` step of
`update_values_yaml.visit` (lines 188-204), performed on a dict before its
values are visited: possibly rewrites `obj["image"]["repository"]` in
place and reports whether `changed` was set. -/
def imageStep (o : JVal) : JVal × Bool :=
  match getO (cs "image") o with
  | some img =>
    if isObjShape img then
      match getO (cs "repository") img with
      | some (.jstr repo) =>
        match rewriteRepoV repo with
        | some r => (setO (cs "image") (setO (cs "repository") (.jstr r) img) o, true)
        | none => (o, false)
      | _ => (o, false)
    else (o, false)
  | none => (o, false)

/-- `update_values_yaml.visit` (lines 184-211).  `loop = false` models a
call `visit(v)`; `loop = true` models the per-entry iteration
(`for k, v in list(obj.items()): obj[k] = visit(v)` for dicts,
`for i, v in enumerate(obj): obj[i] = visit(v)` for lists) over the
remaining entries.  Every recursive call decrements the fuel by one; the
call depth is bounded by twice the constructor count of the document
(`imageStep` only replaces one string leaf by another, preserving that
count), so the wrapper's fuel makes the recursion exact. -/
def visitValsGo : Nat → Bool → JVal → JVal × Bool
  | 0, _, v => (v, false)
  | fuel + 1, false, v =>
    match v with
    | .onil => let r := visitValsGo fuel true JVal.onil; r
    | .ocons k w t =>
      let step := imageStep (.ocons k w t)
      let r := visitValsGo fuel true step.1
      (r.1, step.2 || r.2)
    | .anil => visitValsGo fuel true JVal.anil
    | .acons w t => visitValsGo fuel true (.acons w t)
    | other => (other, false)
  | fuel + 1, true, v =>
    match v with
    | .ocons k w t =>
      let rv := visitValsGo fuel false w
      let rt := visitValsGo fuel true t
      (.ocons k rv.1 rt.1, rv.2 || rt.2)
    | .acons w t =>
      let rv := visitValsGo fuel false w
      let rt := visitValsGo fuel true t
      (.acons rv.1 rt.1, rv.2 || rt.2)
    | other => (other, false)

/-- Constructor count of a document; string contents do not contribute,
so the in-place string replacement of `imageStep` preserves it. -/
def nodes : JVal → Nat
  | .acons v t => nodes v + nodes t + 1
  | .ocons _ v t => nodes v + nodes t + 1
  | _ => 1

/-- `update_values_yaml(path)` on a successfully parsed document: the
visited document and the final `changed` flag. -/
def updateValuesYamlDoc (d : JVal) : JVal × Bool :=
  visitValsGo (2 * nodes d + 2) false d

/-! ## `update_values_schema_json` (migrator lines 219-253) -/

/-- The string rewrite applied to dict values inside a schema document
(lines 233-239): two prefix rewrites (both `if`, the second tested on the
result of the first) followed by two substring replaces.  As in the
source, the first replace's pattern and replacement are the identical
self-migrated string. -/
def rewriteSchemaStr (v : Str) : Str :=
  let n1 := if pyStartswith (cs "bitnami/") v then cs "helmhubio/" ++ pyAfterFirst '/' v else v
  let n2 := if pyStartswith (cs "bitnamilegacy/") n1 then cs "helmhubio/" ++ pyAfterFirst '/' n1 else n1
  let n3 := pyReplace (cs "docker.io/helmhubio/") (cs "docker.io/helmhubio/") n2
  pyReplace (cs "docker.io/helmhubiolegacy/") (cs "docker.io/helmhubio/") n3

/-- `update_values_schema_json.visit` (lines 227-248): in a dict, a value
that is a string is rewritten in place (setting `changed` when it
differs); any other value is visited recursively.  In a list, every
element is visited recursively — so a string that is a direct list
element falls into the scalar case of `visit` and is returned unchanged.
Scalars are returned unchanged. -/
def visitSchema : JVal → JVal × Bool
  | .ocons k v t =>
    let rt := visitSchema t
    match v with
    | .jstr s =>
      let n := rewriteSchemaStr s
      if n = s then (.ocons k v rt.1, rt.2)
      else (.ocons k (.jstr n) rt.1, true)
    | _ =>
      let rv := visitSchema v
      (.ocons k rv.1 rt.1, rv.2 || rt.2)
  | .acons v t =>
    let rv := visitSchema v
    let rt := visitSchema t
    (.acons rv.1 rt.1, rv.2 || rt.2)
  | other => (other, false)

/-- `update_values_schema_json(path)` on a successfully parsed document. -/
def updateValuesSchemaJson (d : JVal) : JVal × Bool := visitSchema d

/-! ## `update_chart_yaml` (migrator lines 77-174) -/

/-- The per-string rewrite of `annotations.images` entries (lines 93-94
and 104-105).  Both replaces are as the source spells them after its
self-migration: the first has identical pattern and replacement. -/
def chartImageStr (s : Str) : Str :=
  pyReplace (cs "docker.io/helmhubiolegacy/") (cs "docker.io/helmhubio/")
    (pyReplace (cs "docker.io/helmhubio/") (cs "docker.io/helmhubio/") s)

/-- The `annotations.images` list loop (lines 90-99): string items are
rewritten, `changed` is set per item that differs, non-strings pass
through. -/
def chartImagesList : JVal → JVal × Bool
  | .acons v t =>
    let rt := chartImagesList t
    match v with
    | .jstr s =>
      let n := chartImageStr s
      (.acons (.jstr n) rt.1, decide (n ≠ s) || rt.2)
    | _ => (.acons v rt.1, rt.2)
  | other => (other, false)

/-- The `dependencies` loop (lines 112-121): each dict entry with a string
`repository` has it replaced by the (self-migrated, identical) OCI
registry pattern; `changed` is set only when the result differs. -/
def chartDepsList : JVal → JVal × Bool
  | .acons dep t =>
    let rt := chartDepsList t
    match getO (cs "repository") dep with
    | some (.jstr repo) =>
      let n := pyReplace (cs "oci://registry-1.docker.io/helmhubiocharts")
        (cs "oci://registry-1.docker.io/helmhubiocharts") repo
      if n ≠ repo then (.acons (setO (cs "repository") (.jstr n) dep) rt.1, true)
      else (.acons dep rt.1, rt.2)
    | _ => (.acons dep rt.1, rt.2)
  | other => (other, false)

/-- The `sources` loop (lines 136-147): string entries get the (identical)
GitHub pattern replace and then the tree/blob path substitution. -/
def chartSourcesList : JVal → JVal × Bool
  | .acons v t =>
    let rt := chartSourcesList t
    match v with
    | .jstr s =>
      let n := subTreeBlob (pyReplace (cs "github.com/helmhub-io/charts")
        (cs "github.com/helmhub-io/charts") s)
      (.acons (.jstr n) rt.1, decide (n ≠ s) || rt.2)
    | _ => (.acons v rt.1, rt.2)
  | other => (other, false)

/-- The `maintainers` loop (lines 150-157): dict entries with a string
`url` get the (identical) GitHub pattern replace. -/
def chartMaintainersList : JVal → JVal × Bool
  | .acons m t =>
    let rt := chartMaintainersList t
    match getO (cs "url") m with
    | some (.jstr u) =>
      let n := pyReplace (cs "github.com/helmhub-io/charts") (cs "github.com/helmhub-io/charts") u
      if n ≠ u then (.acons (setO (cs "url") (.jstr n) m) rt.1, true)
      else (.acons m rt.1, rt.2)
    | _ => (.acons m rt.1, rt.2)
  | other => (other, false)

/-- The `tags` loop (lines 160-170): string entries get a literal
`bitnami` → `helmhubio` replace. -/
def chartTagsList : JVal → JVal × Bool
  | .acons v t =>
    let rt := chartTagsList t
    match v with
    | .jstr s =>
      let n := pyReplace (cs "bitnami") (cs "helmhubio") s
      (.acons (.jstr n) rt.1, decide (n ≠ s) || rt.2)
    | _ => (.acons v rt.1, rt.2)
  | other => (other, false)

/-- `update_chart_yaml(path)` on a successfully parsed document (lines
82-174): a non-dict document is returned unchanged with `changed = False`;
otherwise the six sections run in order, threading the mutated document
and accumulating `changed`.  `data.get("annotations") or {}` yields a
falsy value's `{}`; the sections guarded by `isinstance(..., list)` are
skipped for non-lists.  (A truthy non-dict `annotations` value would raise
in Python; such inputs are outside the modeled shapes and none of the
theorems below use them.) -/
def updateChartYaml (d : JVal) : JVal × Bool :=
  if isObjShape d = false then (d, false) else
  let ann : JVal :=
    match getO (cs "annotations") d with
    | some a => if isObjShape a then a else .onil
    | none => .onil
  let s1 : JVal × Bool :=
    match getO (cs "images") ann with
    | some imgs =>
      if isArrShape imgs then
        let r := chartImagesList imgs
        if r.1 ≠ imgs then (setO (cs "annotations") (setO (cs "images") r.1 ann) d, r.2)
        else (d, r.2)
      else
        match imgs with
        | .jstr s =>
          let n := chartImageStr s
          if n ≠ s then (setO (cs "annotations") (setO (cs "images") (.jstr n) ann) d, true)
          else (d, false)
        | _ => (d, false)
    | none => (d, false)
  let s2 : JVal × Bool :=
    match getO (cs "dependencies") s1.1 with
    | some dd =>
      if isArrShape dd then
        let r := chartDepsList dd
        (setO (cs "dependencies") r.1 s1.1, r.2)
      else (s1.1, false)
    | _ => (s1.1, false)
  let s3 : JVal × Bool :=
    match getO (cs "home") s2.1 with
    | some (.jstr home) =>
      let n0 := if pyContains (cs "bitnami") home then cs "https://github.com/helmhub-io/charts" else home
      let n1 := pyReplace (cs "github.com/helmhub-io/charts") (cs "github.com/helmhub-io/charts") n0
      let n2 := subTreeBlob n1
      if n2 ≠ home then (setO (cs "home") (.jstr n2) s2.1, true) else (s2.1, false)
    | _ => (s2.1, false)
  let s4 : JVal × Bool :=
    match getO (cs "sources") s3.1 with
    | some ss =>
      if isArrShape ss then
        let r := chartSourcesList ss
        (setO (cs "sources") r.1 s3.1, r.2)
      else (s3.1, false)
    | _ => (s3.1, false)
  let s5 : JVal × Bool :=
    match getO (cs "maintainers") s4.1 with
    | some ms =>
      if isArrShape ms then
        let r := chartMaintainersList ms
        (setO (cs "maintainers") r.1 s4.1, r.2)
      else (s4.1, false)
    | _ => (s4.1, false)
  let s6 : JVal × Bool :=
    match getO (cs "tags") s5.1 with
    | some ts =>
      if isArrShape ts then
        let r := chartTagsList ts
        (setO (cs "tags") r.1 s5.1, r.2)
      else (s5.1, false)
    | _ => (s5.1, false)
  (s6.1, s1.2 || s2.2 || s3.2 || s4.2 || s5.2 || s6.2)

/-! ## `safe_text_replace` (migrator lines 44-58 and 256-281) -/

/-- The content transformation of `safe_text_replace`: the five
`SAFE_TEXT_PATTERNS` in order (three of them literal regexes written with
escaped dots, one literal GitHub pattern, then the tree/blob path rule);
in readme mode additionally the `README_BRAND_PATTERNS` word rewrite
followed by the docs namespace substitution; for paths containing
`.github` additionally the CI namespace substitution. -/
def safeTextContent (readmeMode inGithub : Bool) (text : Str) : Str :=
  let t := pyReplace (cs "oci://registry-1.docker.io/bitnamicharts")
    (cs "oci://registry-1.docker.io/helmhubiocharts") text
  let t := pyReplace (cs "docker.io/bitnami/") (cs "docker.io/helmhubio/") t
  let t := pyReplace (cs "docker.io/bitnamilegacy/") (cs "docker.io/helmhubio/") t
  let t := pyReplace (cs "github.com/bitnami/charts") (cs "github.com/helmhub-io/charts") t
  let t := subTreeBlob t
  let t := if readmeMode then reSubNs clsDocs (cs "helmhubio") (subBrandWord t) else t
  let t := if inGithub then reSubNs clsGh (cs "helmhub-io") t else t
  t

/-- `safe_text_replace(path, readme_mode)`: the new on-disk content and the
returned flag; the file is written exactly when the text differs. -/
def safeTextReplace (readmeMode inGithub : Bool) (text : Str) : Str × Bool :=
  let t := safeTextContent readmeMode inGithub text
  if t = text then (text, false) else (t, true)

/-! ## Per-file dispatch of `main` (migrator lines 325-395)

A file is modeled by its base name, lower-cased suffix, whether its path
contains `.github`, whether it lies directly under a chart directory of a
top-level tree (so the `*/Chart.yaml`-style globs of step 1 see it), and
its content.  Content of a structured file is its parse result
(`parsed`/`badParse`); content of a text file is its raw text.  Step 1
runs the structural rewriters on the three structured names under chart
directories; step 2 runs `safe_text_replace` on every other file with an
allowed suffix, skipping the three structured names everywhere.  Both
steps write whenever their rewriter reports a change — `args.apply` gates
only the optional renames, not these writes. -/

inductive MDoc where
  | parsed (v : JVal)
  | badParse
  | raw (t : Str)
  deriving DecidableEq

structure MFile where
  name : Str
  ext : Str
  inGithub : Bool
  isChartFile : Bool
  doc : MDoc
  deriving DecidableEq

def structuralNames : List Str := [cs "Chart.yaml", cs "values.yaml", cs "values.schema.json"]

def textSuffixes : List Str :=
  [cs ".md", cs ".tpl", cs ".txt", cs ".yaml", cs ".yml", cs ".json", cs ".conf", cs ""]

/-- One file's treatment by a run of `main`: the file's content after the
run and whether it was recorded as changed.  A structured file whose
`load` raises is reported unchanged (`update_*` returns `False` from its
`except` branch) and is never passed to `safe_text_replace`, which skips
the three structured names by name (line 368). -/
def processFile (f : MFile) : MFile × Bool :=
  if f.isChartFile = true ∧ f.name = cs "Chart.yaml" then
    match f.doc with
    | .parsed d =>
      let r := updateChartYaml d
      ({ f with doc := if r.2 then .parsed r.1 else f.doc }, r.2)
    | _ => (f, false)
  else if f.isChartFile = true ∧ f.name = cs "values.yaml" then
    match f.doc with
    | .parsed d =>
      let r := updateValuesYamlDoc d
      ({ f with doc := if r.2 then .parsed r.1 else f.doc }, r.2)
    | _ => (f, false)
  else if f.isChartFile = true ∧ f.name = cs "values.schema.json" then
    match f.doc with
    | .parsed d =>
      let r := updateValuesSchemaJson d
      ({ f with doc := if r.2 then .parsed r.1 else f.doc }, r.2)
    | _ => (f, false)
  else if f.ext ∈ textSuffixes ∧ f.name ∉ structuralNames then
    match f.doc with
    | .raw t =>
      let r := safeTextReplace (f.ext = cs ".md") f.inGithub t
      ({ f with doc := if r.2 then .raw r.1 else f.doc }, r.2)
    | _ => (f, false)
  else (f, false)

/-- Both rewrite passes of `main` over a tree of files: the tree's
contents after the run and the change report. -/
def processTree : List MFile → List MFile × List Str
  | [] => ([], [])
  | f :: fs =>
    let r := processFile f
    let rt := processTree fs
    (r.1 :: rt.1, if r.2 then f.name :: rt.2 else rt.2)

/-- A whole run of `main` on a tree: `applyFlag` models `args.apply`.  In
the source it gates only the optional directory renames (out of scope
here) and the exit message — both rewrite passes run and write their
changes regardless, which is exactly what this definition expresses. -/
def runMigration (applyFlag : Bool) (tree : List MFile) : List MFile × List Str :=
  processTree tree

/-! ## Claim theorems for the migrator -/

def dryRunExampleFile : MFile :=
  { name := cs "values.yaml", ext := cs ".yaml", inGithub := false, isChartFile := true,
    doc := .parsed (.ocons (cs "image")
      (.ocons (cs "repository") (.jstr (cs "bitnami/nginx"))
        (.ocons (cs "tag") (.jstr (cs "1.25.0")) .onil)) .onil) }

/-- C2: the claim says a dry run (the default, `apply = false`) writes
nothing.  The code, however, gates only the renames on `--apply`: both
rewrite passes write whenever a rewriter reports a change.  On a tree with
one values file whose repository is `bitnami/nginx`, the dry run leaves
the tree different from its pre-run state, with the repository rewritten
on disk. -/
theorem dryRun_still_writes :
    (runMigration false [dryRunExampleFile]).1 ≠ [dryRunExampleFile] ∧
      (runMigration false [dryRunExampleFile]).1 =
        [{ dryRunExampleFile with doc := .parsed (.ocons (cs "image")
            (.ocons (cs "repository") (.jstr (cs "helmhubio/nginx"))
              (.ocons (cs "tag") (.jstr (cs "1.25.0")) .onil)) .onil) }] ∧
      (runMigration false [dryRunExampleFile]).2 = [cs "values.yaml"] := by
  decide

def idempotenceExampleDoc : JVal :=
  .ocons (cs "image") (.ocons (cs "repository") (.jstr (cs "docker.io/helmhubio/nginx")) .onil) .onil

/-- C3: the claim says a second application of the rewriter always reports
`changed == false`.  For a values document whose `image.repository` starts
with `docker.io/helmhubio/`, the self-migrated third branch replaces the
string by itself yet sets `changed`: the first application already leaves
the document unchanged, and the second application (on that same fixed
point) still reports `changed == true`. -/
theorem valuesRewrite_not_idempotent :
    (updateValuesYamlDoc idempotenceExampleDoc).1 = idempotenceExampleDoc ∧
      (updateValuesYamlDoc ((updateValuesYamlDoc idempotenceExampleDoc).1)).2 = true := by
  decide

/-- C4: the claim says a string containing the in-container path
`/opt/bitnami/app` is never altered by either rewriter in any role.  The
structural values rewriter indeed leaves it alone, but the text rewriter's
documentation-role pattern `\bbitnami/([a-z0-9_.-]+)` (and the CI-role
variant) matches right after `/opt/`, so documentation and CI-workflow
files have the path rewritten. -/
theorem inContainerPath_not_protected :
    safeTextContent true false (cs "/opt/bitnami/app") = cs "/opt/helmhubio/app" ∧
      safeTextContent false true (cs "/opt/bitnami/app") = cs "/opt/helmhub-io/app" ∧
      updateValuesYamlDoc (.ocons (cs "image") (.ocons (cs "repository")
          (.jstr (cs "/opt/bitnami/app")) .onil) .onil) =
        (.ocons (cs "image") (.ocons (cs "repository") (.jstr (cs "/opt/bitnami/app")) .onil) .onil,
          false) := by
  decide

/-- C6: a structured file (chart-metadata, values or json-schema role)
whose content fails to parse is reported unchanged with
`changed == false`, is not handed to the text rewriter, and the run
continues with the remaining files. -/
theorem parseFailure_skipped (f : MFile) (rest : List MFile)
    (hchart : f.isChartFile = true)
    (hname : f.name ∈ structuralNames)
    (hdoc : f.doc = .badParse) :
    processFile f = (f, false) ∧
      processTree (f :: rest) = (f :: (processTree rest).1, (processTree rest).2) := by
  have hpf : processFile f = (f, false) := by
    simp only [structuralNames, List.mem_cons, List.not_mem_nil, or_false] at hname
    unfold processFile
    rcases hname with h | h | h
    · rw [if_pos ⟨hchart, h⟩, hdoc]
    · have hne1 : ¬(f.isChartFile = true ∧ f.name = cs "Chart.yaml") := by
        intro hc
        rw [h] at hc
        exact absurd hc.2 (by decide)
      rw [if_neg hne1, if_pos ⟨hchart, h⟩, hdoc]
    · have hne1 : ¬(f.isChartFile = true ∧ f.name = cs "Chart.yaml") := by
        intro hc
        rw [h] at hc
        exact absurd hc.2 (by decide)
      have hne2 : ¬(f.isChartFile = true ∧ f.name = cs "values.yaml") := by
        intro hc
        rw [h] at hc
        exact absurd hc.2 (by decide)
      rw [if_neg hne1, if_neg hne2, if_pos ⟨hchart, h⟩, hdoc]
  refine ⟨hpf, ?_⟩
  simp [processTree, hpf]

def badParseChartFile : MFile :=
  { name := cs "Chart.yaml", ext := cs ".yaml", inGithub := false, isChartFile := true,
    doc := .badParse }

theorem parseFailure_skipped_witness :
    processFile badParseChartFile = (badParseChartFile, false) ∧
      processTree [badParseChartFile] = ([badParseChartFile], []) := by
  have h := parseFailure_skipped badParseChartFile [] rfl (by decide) rfl
  exact ⟨h.1, h.2⟩

def chartExampleDoc : JVal :=
  .ocons (cs "annotations")
    (.ocons (cs "images") (.acons (.jstr (cs "docker.io/bitnami/nginx:1.25.0")) .anil) .onil)
    (.ocons (cs "dependencies")
      (.acons (.ocons (cs "name") (.jstr (cs "common"))
        (.ocons (cs "repository") (.jstr (cs "oci://registry-1.docker.io/bitnamicharts")) .onil))
        .anil)
      .onil)

/-- C7: the claim says the chart-metadata rewriter rewrites legacy
registry/namespace prefixes in annotation image strings and in dependency
registry references.  After the script migrated itself, the annotation
replace and the dependency replace both have their original
`docker.io/bitnami/` / `oci://...bitnamicharts` patterns replaced by the
new spelling, so a chart with exactly such legacy references is returned
completely unchanged with `changed == false`. -/
theorem chartYaml_legacy_refs_unchanged :
    updateChartYaml chartExampleDoc = (chartExampleDoc, false) := by
  decide

def schemaExampleDoc : JVal :=
  .ocons (cs "examples") (.acons (.jstr (cs "bitnami/nginx")) .anil) .onil

/-- C8 counterexample: the claim says the json-schema rewrite applies to
every string anywhere, including strings that are elements of arrays.  In
a schema whose `examples` array holds the string `bitnami/nginx` — which
the namespace rewrite would change, as the second conjunct shows — the
document is returned unchanged: `visit` only rewrites strings that are
dict values, and a string reached as a list element falls into the
scalar case. -/
theorem schemaArrayString_not_rewritten :
    updateValuesSchemaJson schemaExampleDoc = (schemaExampleDoc, false) ∧
      rewriteSchemaStr (cs "bitnami/nginx") = cs "helmhubio/nginx" := by
  decide

theorem visitSchema_ocons_shape (k' : Str) (v t : JVal) :
    ∃ w, (visitSchema (.ocons k' v t)).1 = .ocons k' w (visitSchema t).1 := by
  cases v with
  | jstr s =>
    by_cases hn : rewriteSchemaStr s = s
    · exact ⟨.jstr s, by simp [visitSchema, hn]⟩
    · exact ⟨.jstr (rewriteSchemaStr s), by simp [visitSchema, hn]⟩
  | jint n => exact ⟨_, rfl⟩
  | jbool b => exact ⟨_, rfl⟩
  | jnull => exact ⟨_, rfl⟩
  | anil => exact ⟨_, rfl⟩
  | acons v' t' => exact ⟨_, rfl⟩
  | onil => exact ⟨_, rfl⟩
  | ocons k'' v' t' => exact ⟨_, rfl⟩

/-- C8 as amended: the namespace-prefix rewrite is applied to every string
value that is the value of a dict key, at any depth, while a string that
is a direct element of an array is passed through unchanged. -/
theorem schemaRewrite_objectValues_only :
    (∀ (o : JVal) (k s : Str), getO k o = some (.jstr s) →
        getO k (visitSchema o).1 = some (.jstr (rewriteSchemaStr s))) ∧
      (∀ (s : Str) (t : JVal),
        (visitSchema (.acons (.jstr s) t)).1 = .acons (.jstr s) (visitSchema t).1) := by
  constructor
  · intro o
    induction o with
    | jstr s => intro k s hg; simp [getO] at hg
    | jint n => intro k s hg; simp [getO] at hg
    | jbool b => intro k s hg; simp [getO] at hg
    | jnull => intro k s hg; simp [getO] at hg
    | anil => intro k s hg; simp [getO] at hg
    | acons v t ihv iht => intro k s hg; simp [getO] at hg
    | onil => intro k s hg; simp [getO] at hg
    | ocons k' v t ihv iht =>
      intro k s hg
      by_cases hk : k = k'
      · rw [getO, if_pos hk] at hg
        have hv : v = .jstr s := by
          cases hg
          rfl
        subst hv
        by_cases hn : rewriteSchemaStr s = s
        · simp [visitSchema, hn, getO, if_pos hk]
        · simp [visitSchema, hn, getO, if_pos hk]
      · rw [getO, if_neg hk] at hg
        obtain ⟨w, hw⟩ := visitSchema_ocons_shape k' v t
        rw [hw, getO, if_neg hk]
        exact iht k s hg
  · intro s t
    rfl

theorem schemaRewrite_objectValues_only_witness :
    getO (cs "default")
        (visitSchema (.ocons (cs "default") (.jstr (cs "bitnami/redis")) .onil)).1 =
      some (.jstr (rewriteSchemaStr (cs "bitnami/redis"))) :=
  schemaRewrite_objectValues_only.1
    (.ocons (cs "default") (.jstr (cs "bitnami/redis")) .onil)
    (cs "default") (cs "bitnami/redis") (by decide)

/-- C10: the text rewriter maps the same `bitnami/<name>` token to
`helmhubio/<name>` in documentation files but to `helmhub-io/<name>` in
CI-workflow files (paths containing `.github`), so the two roles produce
different outputs on the same input. -/
theorem textRewriter_role_divergence :
    safeTextContent true false (cs "uses bitnami/nginx") = cs "uses helmhubio/nginx" ∧
      safeTextContent false true (cs "uses bitnami/nginx") = cs "uses helmhub-io/nginx" ∧
      safeTextContent true false (cs "uses bitnami/nginx") ≠
        safeTextContent false true (cs "uses bitnami/nginx") := by
  decide
